import Mathlib

/-!
# Verification of the Lettermint webhook signature verifier

A shallow embedding of `src/lettermint/webhook.py` (class `Webhook`) together
with the helper routines it calls, and proofs of the specification's claims
about it.

Modelling conventions:
* Python strings are Lean `String`s (a `String` here is a structure holding a
  `List Char`); the splitting routines `str.split(",")` and
  `str.split("=", 1)` are embedded as recursive functions on `List Char`
  (`splitChar`, `splitFirstChar`) with the exact Python semantics.
* `hmac.new(secret, msg, sha256).hexdigest()` is a call into the Python
  standard library, not code of this repository; the verifier is therefore
  parameterised over the MAC function `mac : String → String → String`
  (key, message ↦ lowercase-hex digest).  `hmac.compare_digest` on two ASCII
  hex strings is equality (its constant-time execution is a timing property
  outside a functional embedding).
* `json.loads` is likewise standard-library code; `jsonLoads` below is an
  executable JSON reader covering the JSON fragment the claims exercise
  (objects, arrays, strings with simple escapes, integers, booleans, null).
* `int(value)` (Python's string-to-int conversion) is embedded as `pyIntChars`:
  surrounding whitespace stripped, an optional sign, then a non-empty run of
  decimal digits.  (Python additionally allows underscore digit separators
  and non-ASCII digits; no claim depends on those.)
* `time.time()` is a wall-clock read; the verifier takes the observed current
  time `now : Int` as an explicit argument.
* Each Python exception kind is one constructor of `VerifyError`; distinct
  raise sites of the same Python class with different messages get distinct
  constructors so that claims about particular failure messages are statable.
-/

namespace Lettermint

/-- Decoded JSON values, the result type of `json.loads`. -/
inductive Json where
  | null : Json
  | bool (b : Bool) : Json
  | num (n : Int) : Json
  | str (s : String) : Json
  | arr (elems : List Json) : Json
  | obj (members : List (String × Json)) : Json

/-- The failure kinds of webhook verification.  Mapping to the Python code:
`configurationError` ↦ `ValueError("Webhook secret cannot be empty")`;
`malformedSignature` ↦ `WebhookVerificationError("Invalid signature format. …")`;
`timestampMismatch` ↦ `WebhookVerificationError("Timestamp mismatch …")`;
`missingSignatureHeader` / `missingDeliveryHeader` ↦
`WebhookVerificationError("Missing … header: …")`;
`invalidDeliveryTimestamp` ↦ `WebhookVerificationError("Invalid timestamp format …")`;
`timestampTolerance d t` ↦ `TimestampToleranceError` carrying the observed
difference `d` and the configured tolerance `t`;
`invalidSignature` ↦ `InvalidSignatureError`;
`jsonDecode` ↦ `JsonDecodeError`. -/
inductive VerifyError where
  | configurationError : VerifyError
  | malformedSignature : VerifyError
  | timestampMismatch : VerifyError
  | missingSignatureHeader : VerifyError
  | missingDeliveryHeader : VerifyError
  | invalidDeliveryTimestamp : VerifyError
  | timestampTolerance (difference tolerance : Int) : VerifyError
  | invalidSignature : VerifyError
  | jsonDecode : VerifyError
deriving DecidableEq

/-! ## Python string primitives -/

/-- Python `str.split(sep)` for a one-character separator: every occurrence
splits, empty pieces are kept, the empty string yields `[[]]`. -/
def splitChar (sep : Char) : List Char → List (List Char)
  | [] => [[]]
  | c :: cs =>
    if c = sep then [] :: splitChar sep cs
    else
      match splitChar sep cs with
      | [] => [[c]]
      | p :: ps => (c :: p) :: ps

/-- Python `str.split(sep, 1)` for a one-character separator, restricted to
the split outcome: `none` when the separator does not occur (Python returns a
one-element list, which the caller skips), otherwise the pieces before and
after the first occurrence. -/
def splitFirstChar (sep : Char) : List Char → Option (List Char × List Char)
  | [] => none
  | c :: cs =>
    if c = sep then some ([], cs)
    else (splitFirstChar sep cs).map (fun p => (c :: p.1, p.2))

/-- The whitespace characters Python's `int(str)` strips. -/
def isPySpace (c : Char) : Bool :=
  c = ' ' || c = '\t' || c = '\n' || c = '\x0b' || c = '\x0c' || c = '\r'

/-- Strip leading and trailing `int()`-whitespace. -/
def stripPy (cs : List Char) : List Char :=
  ((cs.dropWhile isPySpace).reverse.dropWhile isPySpace).reverse

/-- The value of a run of decimal digit characters, most significant first. -/
def digitsVal (cs : List Char) : Nat :=
  cs.foldl (fun a c => 10 * a + (c.toNat - 48)) 0

/-- A non-empty all-digit run parses to its value; anything else fails. -/
def parseUnsigned (cs : List Char) : Option Nat :=
  if cs ≠ [] ∧ cs.all Char.isDigit then some (digitsVal cs) else none

/-- Python `int(str)`: strip whitespace, optional single sign, then a
non-empty digit run. -/
def pyIntChars (cs0 : List Char) : Option Int :=
  match stripPy cs0 with
  | [] => none
  | c :: rest =>
    if c = '-' then (parseUnsigned rest).map (fun n => -(Int.ofNat n))
    else if c = '+' then (parseUnsigned rest).map Int.ofNat
    else (parseUnsigned (c :: rest)).map Int.ofNat

/-- Python `int(str)` on a `String`. -/
def pyInt (s : String) : Option Int :=
  pyIntChars s.data

/-- Python `str.lower()` (ASCII letters; header names are ASCII). -/
def strLower (s : String) : String :=
  String.mk (s.data.map Char.toLower)

/-! ## A JSON reader standing for `json.loads` -/

/-- JSON whitespace. -/
def isJsonWs (c : Char) : Bool :=
  c = ' ' || c = '\t' || c = '\n' || c = '\r'

/-- Drop leading JSON whitespace. -/
def skipJsonWs (cs : List Char) : List Char :=
  cs.dropWhile isJsonWs

/-- A JSON string escape (the `\\uXXXX` form is outside this model's
fragment). -/
def escChar : Char → Option Char
  | 'n' => some '\n'
  | 't' => some '\t'
  | 'r' => some '\r'
  | 'b' => some '\x08'
  | 'f' => some '\x0c'
  | '"' => some '"'
  | '/' => some '/'
  | '\\' => some '\\'
  | _ => none

/-- Read the characters of a JSON string after the opening quote, returning
the content and the remainder after the closing quote. -/
def readJsonStr : List Char → Option (List Char × List Char)
  | [] => none
  | '"' :: rest => some ([], rest)
  | '\\' :: e :: rest =>
    match escChar e with
    | none => none
    | some c => (readJsonStr rest).map (fun p => (c :: p.1, p.2))
  | c :: rest => (readJsonStr rest).map (fun p => (c :: p.1, p.2))

/-- Read a JSON natural-number literal (no leading zero except `0` itself;
a following `.`, `e` or `E` would start a float, outside this fragment). -/
def readJsonNat (cs : List Char) : Option (Nat × List Char) :=
  let ds := cs.takeWhile Char.isDigit
  let rest := cs.drop ds.length
  if ds = [] then none
  else if 1 < ds.length ∧ ds.head? = some '0' then none
  else
    match rest with
    | '.' :: _ => none
    | 'e' :: _ => none
    | 'E' :: _ => none
    | _ => some (digitsVal ds, rest)

/-- Read a JSON integer literal. -/
def readJsonInt : List Char → Option (Int × List Char)
  | '-' :: rest => (readJsonNat rest).map (fun p => (-(p.1 : Int), p.2))
  | cs => (readJsonNat cs).map (fun p => ((p.1 : Int), p.2))

mutual

/-- Read one JSON value (fuelled recursion; the driver supplies ample fuel). -/
def readJsonValue : Nat → List Char → Option (Json × List Char)
  | 0, _ => none
  | fuel + 1, cs =>
    match skipJsonWs cs with
    | 'n' :: 'u' :: 'l' :: 'l' :: rest => some (.null, rest)
    | 't' :: 'r' :: 'u' :: 'e' :: rest => some (.bool true, rest)
    | 'f' :: 'a' :: 'l' :: 's' :: 'e' :: rest => some (.bool false, rest)
    | '"' :: rest => (readJsonStr rest).map (fun p => (.str (String.mk p.1), p.2))
    | '[' :: rest =>
      (match skipJsonWs rest with
       | ']' :: rest2 => some (.arr [], rest2)
       | cs2 => readJsonItems fuel cs2 [])
    | '{' :: rest =>
      (match skipJsonWs rest with
       | '}' :: rest2 => some (.obj [], rest2)
       | cs2 => readJsonMembers fuel cs2 [])
    | cs1 => (readJsonInt cs1).map (fun p => (.num p.1, p.2))

/-- Read the comma-separated elements of a non-empty JSON array, up to and
including the closing bracket. -/
def readJsonItems : Nat → List Char → List Json → Option (Json × List Char)
  | 0, _, _ => none
  | fuel + 1, cs, acc =>
    match readJsonValue fuel cs with
    | none => none
    | some (v, rest) =>
      match skipJsonWs rest with
      | ',' :: rest2 => readJsonItems fuel rest2 (acc ++ [v])
      | ']' :: rest2 => some (.arr (acc ++ [v]), rest2)
      | _ => none

/-- Read the comma-separated members of a non-empty JSON object, up to and
including the closing brace. -/
def readJsonMembers : Nat → List Char → List (String × Json) →
    Option (Json × List Char)
  | 0, _, _ => none
  | fuel + 1, cs, acc =>
    match skipJsonWs cs with
    | '"' :: rest =>
      (match readJsonStr rest with
       | none => none
       | some (key, rest1) =>
         match skipJsonWs rest1 with
         | ':' :: rest2 =>
           (match readJsonValue fuel rest2 with
            | none => none
            | some (v, rest3) =>
              match skipJsonWs rest3 with
              | ',' :: rest4 => readJsonMembers fuel rest4 (acc ++ [(String.mk key, v)])
              | '}' :: rest4 => some (.obj (acc ++ [(String.mk key, v)]), rest4)
              | _ => none)
         | _ => none)
    | _ => none

end

/-- `json.loads` on this model's JSON fragment: read one value and require
only whitespace after it. -/
def jsonLoads (s : String) : Option Json :=
  match readJsonValue (s.length + 2) s.data with
  | none => none
  | some (v, rest) => if skipJsonWs rest = [] then some v else none

/-- A concrete stand-in MAC used to instantiate the `mac` parameter in
witnesses: deterministic, outputting only lowercase hex digits, and keyed
(inputs of different total length give digests of different length). -/
def demoMac (key msg : String) : String :=
  String.mk ((key.data ++ '.' :: msg.data).map (fun c => Nat.digitChar (c.toNat % 16)))

/-! ## The verifier -/

/-- Module-level constant `SIGNATURE_HEADER`. -/
def SIGNATURE_HEADER : String := "X-Lettermint-Signature"

/-- Module-level constant `DELIVERY_HEADER`. -/
def DELIVERY_HEADER : String := "X-Lettermint-Delivery"

/-- Module-level constant `DEFAULT_TOLERANCE` (5 minutes). -/
def DEFAULT_TOLERANCE : Int := 300

/-- The verifier's state: exactly the two attributes `Webhook.__init__`
stores (`self._secret`, `self._tolerance`). -/
structure Webhook where
  secret : String
  tolerance : Int
deriving DecidableEq

/-- `Webhook.__init__`: reject an empty secret (`ValueError`), otherwise
store the secret and tolerance. -/
def Webhook.make (secret : String) (tolerance : Int) : Except VerifyError Webhook :=
  if secret = "" then .error .configurationError
  else .ok ⟨secret, tolerance⟩

/-- One step of the `for part in parts` loop of `Webhook._parse_signature`:
the accumulator is the pair `(parsed_timestamp, parsed_signature)`.  A part
without `=` is skipped; key `t` updates the timestamp when its value parses
as an integer and is skipped otherwise; key `v1` updates the signature;
unrecognised keys are skipped. -/
def parsePart (acc : Option Int × Option (List Char)) (part : List Char) :
    Option Int × Option (List Char) :=
  match splitFirstChar '=' part with
  | none => acc
  | some (key, value) =>
    if key = "t".data then
      match pyIntChars value with
      | some n => (some n, acc.2)
      | none => acc
    else if key = "v1".data then
      (acc.1, some value)
    else acc

/-- `Webhook._parse_signature`: split on `,`, fold the parts, and fail with
the malformed-signature error unless both `t` and `v1` were found. -/
def parseSignature (signature : String) : Except VerifyError (Int × String) :=
  match (splitChar ',' signature.data).foldl parsePart (none, none) with
  | (some t, some v) => .ok (t, String.mk v)
  | _ => .error .malformedSignature

/-- `Webhook._validate_timestamp`: compare `|now − timestamp|` against the
tolerance, failing with the observed difference and the tolerance. -/
def Webhook.validateTimestamp (w : Webhook) (now timestamp : Int) :
    Except VerifyError Unit :=
  let difference := |now - timestamp|
  if difference > w.tolerance then
    .error (.timestampTolerance difference w.tolerance)
  else .ok ()

/-- The tail of `Webhook.verify` after the cross-timestamp check: validate
freshness, recompute the MAC over `"{t}.{payload}"`, compare digests, and
only then decode the payload as JSON. -/
def Webhook.finishVerify (w : Webhook) (mac : String → String → String)
    (jsonLoads : String → Option Json) (now : Int) (payload : String)
    (signatureTimestamp : Int) (expectedSignature : String) :
    Except VerifyError Json :=
  match w.validateTimestamp now signatureTimestamp with
  | .error e => .error e
  | .ok _ =>
    let signedContent := toString signatureTimestamp ++ "." ++ payload
    let computedSignature := mac w.secret signedContent
    if computedSignature = expectedSignature then
      match jsonLoads payload with
      | none => .error .jsonDecode
      | some data => .ok data
    else .error .invalidSignature

/-- `Webhook.verify`: parse the signature header, cross-validate the optional
delivery timestamp against the embedded one, then freshness, digest
comparison and JSON decoding in that order. -/
def Webhook.verify (w : Webhook) (mac : String → String → String)
    (jsonLoads : String → Option Json) (now : Int)
    (payload signature : String) (timestamp : Option Int) :
    Except VerifyError Json :=
  match parseSignature signature with
  | .error e => .error e
  | .ok (signatureTimestamp, expectedSignature) =>
    match timestamp with
    | some ts =>
      if ts = signatureTimestamp then
        w.finishVerify mac jsonLoads now payload signatureTimestamp expectedSignature
      else .error .timestampMismatch
    | none => w.finishVerify mac jsonLoads now payload signatureTimestamp expectedSignature

/-- `Webhook._normalize_headers`: lowercase every key. -/
def normalizeHeaders (headers : List (String × String)) : List (String × String) :=
  headers.map (fun kv => (strLower kv.1, kv.2))

/-- Lookup in the dict built from an association list: for duplicate keys the
last binding wins, exactly as successive dict assignments overwrite. -/
def dictGet (pairs : List (String × String)) (key : String) : Option String :=
  pairs.foldl (fun acc kv => if kv.1 = key then some kv.2 else acc) none

/-- `Webhook.verify_headers`: normalise keys, require the signature and
delivery headers, parse the delivery timestamp, and delegate to `verify`
with it as the cross-validation timestamp. -/
def Webhook.verifyHeaders (w : Webhook) (mac : String → String → String)
    (jsonLoads : String → Option Json) (now : Int)
    (headers : List (String × String)) (payload : String) :
    Except VerifyError Json :=
  let normalizedHeaders := normalizeHeaders headers
  match dictGet normalizedHeaders (strLower SIGNATURE_HEADER) with
  | none => .error .missingSignatureHeader
  | some signature =>
    match dictGet normalizedHeaders (strLower DELIVERY_HEADER) with
    | none => .error .missingDeliveryHeader
    | some timestampStr =>
      match pyInt timestampStr with
      | none => .error .invalidDeliveryTimestamp
      | some timestamp => w.verify mac jsonLoads now payload signature (some timestamp)

/-- `Webhook.verify_signature` (staticmethod): construct a transient verifier
(the `ValueError` of construction propagating) and delegate to `verify`. -/
def Webhook.verifySignature (mac : String → String → String)
    (jsonLoads : String → Option Json) (now : Int)
    (payload signature secret : String) (timestamp : Option Int)
    (tolerance : Int) : Except VerifyError Json :=
  match Webhook.make secret tolerance with
  | .error e => .error e
  | .ok webhook => webhook.verify mac jsonLoads now payload signature timestamp

/-- A lowercase hexadecimal digit, the alphabet of `hexdigest()` output. -/
def isLowerHexDigit (c : Char) : Bool :=
  c.isDigit || ('a' ≤ c && c ≤ 'f')

/-! ## Character facts -/

theorem digit_ne_comma {c : Char} (h : c.isDigit = true) : c ≠ ',' := by
  intro e; rw [e] at h; exact absurd h (by decide)

theorem digit_ne_eq {c : Char} (h : c.isDigit = true) : c ≠ '=' := by
  intro e; rw [e] at h; exact absurd h (by decide)

theorem digit_ne_minus {c : Char} (h : c.isDigit = true) : c ≠ '-' := by
  intro e; rw [e] at h; exact absurd h (by decide)

theorem digit_ne_plus {c : Char} (h : c.isDigit = true) : c ≠ '+' := by
  intro e; rw [e] at h; exact absurd h (by decide)

theorem digit_not_space {c : Char} (h : c.isDigit = true) : isPySpace c = false := by
  revert h
  simp only [Char.isDigit, isPySpace, decide_eq_true_eq, Bool.and_eq_true,
    Bool.or_eq_false_iff, decide_eq_false_iff_not]
  intro h
  have h48 : 48 ≤ c.val.toNat := by exact_mod_cast h.1
  constructor
  · constructor
    · constructor
      · constructor
        · constructor
          · intro e; rw [e] at h48; exact absurd h48 (by decide)
          · intro e; rw [e] at h48; exact absurd h48 (by decide)
        · intro e; rw [e] at h48; exact absurd h48 (by decide)
      · intro e; rw [e] at h48; exact absurd h48 (by decide)
    · intro e; rw [e] at h48; exact absurd h48 (by decide)
  · intro e; rw [e] at h48; exact absurd h48 (by decide)

theorem lowerHex_ne_comma {c : Char} (h : isLowerHexDigit c = true) : c ≠ ',' := by
  intro e; rw [e] at h; exact absurd h (by decide)

/-! ## Splitting lemmas -/

theorem splitChar_of_not_mem {sep : Char} {cs : List Char} (h : sep ∉ cs) :
    splitChar sep cs = [cs] := by
  induction cs with
  | nil => rfl
  | cons c cs ih =>
    have hc : ¬ c = sep := fun e => h (e ▸ List.mem_cons_self c cs)
    have hcs : sep ∉ cs := fun m => h (List.mem_cons_of_mem c m)
    simp only [splitChar, if_neg hc, ih hcs]

theorem splitChar_append {sep : Char} {xs : List Char} (ys : List Char)
    (h : sep ∉ xs) : splitChar sep (xs ++ sep :: ys) = xs :: splitChar sep ys := by
  induction xs with
  | nil => simp [splitChar]
  | cons c cs ih =>
    have hc : ¬ c = sep := fun e => h (e ▸ List.mem_cons_self c cs)
    have hcs : sep ∉ cs := fun m => h (List.mem_cons_of_mem c m)
    simp only [List.cons_append, splitChar, if_neg hc, List.append_eq]
    rw [ih hcs]

theorem splitFirstChar_of_not_mem {sep : Char} {cs : List Char} (h : sep ∉ cs) :
    splitFirstChar sep cs = none := by
  induction cs with
  | nil => rfl
  | cons c cs ih =>
    have hc : ¬ c = sep := fun e => h (e ▸ List.mem_cons_self c cs)
    have hcs : sep ∉ cs := fun m => h (List.mem_cons_of_mem c m)
    simp only [splitFirstChar, if_neg hc, ih hcs, Option.map_none']

theorem splitFirstChar_append {sep : Char} {ks : List Char} (vs : List Char)
    (h : sep ∉ ks) : splitFirstChar sep (ks ++ sep :: vs) = some (ks, vs) := by
  induction ks with
  | nil => simp [splitFirstChar]
  | cons c cs ih =>
    have hc : ¬ c = sep := fun e => h (e ▸ List.mem_cons_self c cs)
    have hcs : sep ∉ cs := fun m => h (List.mem_cons_of_mem c m)
    simp only [List.cons_append, splitFirstChar, if_neg hc, List.append_eq, ih hcs,
      Option.map_some']

/-! ## Whitespace stripping -/

theorem dropWhile_of_all_false {p : Char → Bool} {cs : List Char}
    (h : ∀ c ∈ cs, p c = false) : cs.dropWhile p = cs := by
  cases cs with
  | nil => rfl
  | cons c cs =>
    rw [List.dropWhile_cons_of_neg]
    rw [h c (List.mem_cons_self c cs)]
    exact Bool.false_ne_true

theorem stripPy_of_no_space {cs : List Char}
    (h : ∀ c ∈ cs, isPySpace c = false) : stripPy cs = cs := by
  unfold stripPy
  rw [dropWhile_of_all_false h]
  rw [dropWhile_of_all_false (fun c m => h c (List.mem_reverse.mp m))]
  exact List.reverse_reverse cs

/-! ## The decimal rendering of an integer parses back to itself -/

theorem digitChar_isDigit {m : Nat} (hm : m < 10) :
    (Nat.digitChar m).isDigit = true := by
  interval_cases m <;> decide

theorem digitChar_toNat {m : Nat} (hm : m < 10) :
    (Nat.digitChar m).toNat = 48 + m := by
  interval_cases m <;> decide

theorem digitsVal_append_singleton (cs : List Char) (c : Char) :
    digitsVal (cs ++ [c]) = 10 * digitsVal cs + (c.toNat - 48) := by
  simp [digitsVal]

/-- One unfolding of `Nat.toDigitsCore` at positive fuel, written out. -/
theorem toDigitsCore_succ (fuel n : Nat) (ds : List Char) :
    Nat.toDigitsCore 10 (fuel + 1) n ds =
      if n / 10 = 0 then Nat.digitChar (n % 10) :: ds
      else Nat.toDigitsCore 10 fuel (n / 10) (Nat.digitChar (n % 10) :: ds) := rfl

/-- The accumulator of `Nat.toDigitsCore` is a suffix it never inspects. -/
theorem toDigitsCore_acc (fuel : Nat) : ∀ (n : Nat) (acc : List Char),
    Nat.toDigitsCore 10 fuel n acc = Nat.toDigitsCore 10 fuel n [] ++ acc := by
  induction fuel with
  | zero => intro n acc; rfl
  | succ fuel ih =>
    intro n acc
    rw [toDigitsCore_succ, toDigitsCore_succ]
    by_cases h : n / 10 = 0
    · rw [if_pos h, if_pos h]
      rfl
    · rw [if_neg h, if_neg h,
        ih (n / 10) (Nat.digitChar (n % 10) :: acc),
        ih (n / 10) [Nat.digitChar (n % 10)], List.append_assoc]
      rfl

/-- With ample fuel, the exact amount of fuel does not matter. -/
theorem toDigitsCore_fuel : ∀ (n fa fb : Nat), n < fa → n < fb →
    Nat.toDigitsCore 10 fa n [] = Nat.toDigitsCore 10 fb n [] := by
  intro n
  induction n using Nat.strong_induction_on with
  | _ n ih =>
    intro fa fb ha hb
    cases fa with
    | zero => omega
    | succ ga =>
      cases fb with
      | zero => omega
      | succ gb =>
        rw [toDigitsCore_succ, toDigitsCore_succ]
        by_cases h : n / 10 = 0
        · rw [if_pos h, if_pos h]
        · rw [if_neg h, if_neg h, toDigitsCore_acc ga, toDigitsCore_acc gb,
            ih (n / 10) (by omega) ga gb (by omega) (by omega)]

/-- The recursion `Nat.toDigits` satisfies, with the fuel hidden away. -/
theorem toDigits_step (n : Nat) :
    Nat.toDigits 10 n =
      if n < 10 then [Nat.digitChar n]
      else Nat.toDigits 10 (n / 10) ++ [Nat.digitChar (n % 10)] := by
  unfold Nat.toDigits
  rw [toDigitsCore_succ]
  by_cases h : n / 10 = 0
  · rw [if_pos h, if_pos (by omega)]
    congr 2
    omega
  · rw [if_neg h, if_neg (by omega), toDigitsCore_acc,
      toDigitsCore_fuel (n / 10) n (n / 10 + 1) (by omega) (by omega)]

/-- The decimal digit run of a natural number: non-empty, all digits,
valued back to the number. -/
theorem toDigits_spec (n : Nat) : Nat.toDigits 10 n ≠ [] ∧
    (∀ c ∈ Nat.toDigits 10 n, c.isDigit = true) ∧
    digitsVal (Nat.toDigits 10 n) = n := by
  induction n using Nat.strong_induction_on with
  | _ n ih =>
    rw [toDigits_step]
    by_cases h : n < 10
    · rw [if_pos h]
      refine ⟨by simp, ?_, ?_⟩
      · intro c hc
        rw [List.mem_singleton] at hc
        subst hc
        exact digitChar_isDigit h
      · simp [digitsVal, digitChar_toNat h]
    · rw [if_neg h]
      obtain ⟨hne, hdig, hval⟩ := ih (n / 10) (by omega)
      have hm : n % 10 < 10 := by omega
      refine ⟨by simp, ?_, ?_⟩
      · intro c hc
        rcases List.mem_append.mp hc with hin | hin
        · exact hdig c hin
        · rw [List.mem_singleton] at hin
          subst hin
          exact digitChar_isDigit hm
      · rw [digitsVal_append_singleton, hval, digitChar_toNat hm]
        omega

theorem data_toString_nat (n : Nat) : (toString n).data = Nat.toDigits 10 n := rfl

theorem data_toString_ofNat (n : Nat) :
    (toString (Int.ofNat n)).data = Nat.toDigits 10 n := rfl

theorem data_toString_negSucc (m : Nat) :
    (toString (Int.negSucc m)).data = '-' :: Nat.toDigits 10 (m + 1) := rfl

/-- Every character of the decimal rendering of an integer is a digit or
the leading minus sign. -/
theorem toString_int_chars (t : Int) :
    ∀ c ∈ (toString t).data, c.isDigit = true ∨ c = '-' := by
  cases t with
  | ofNat n =>
    rw [data_toString_ofNat]
    exact fun c hc => Or.inl ((toDigits_spec n).2.1 c hc)
  | negSucc m =>
    rw [data_toString_negSucc]
    intro c hc
    rcases List.mem_cons.mp hc with h | h
    · exact Or.inr h
    · exact Or.inl ((toDigits_spec (m + 1)).2.1 c h)

theorem parseUnsigned_toDigits (n : Nat) :
    parseUnsigned (Nat.toDigits 10 n) = some n := by
  obtain ⟨hne, hdig, hval⟩ := toDigits_spec n
  unfold parseUnsigned
  rw [if_pos ⟨hne, List.all_eq_true.mpr hdig⟩, hval]

/-- Python's `int()` reads the decimal rendering of any integer back to it. -/
theorem pyIntChars_toString (t : Int) : pyIntChars (toString t).data = some t := by
  cases t with
  | ofNat n =>
    rw [data_toString_ofNat]
    obtain ⟨hne, hdig, hval⟩ := toDigits_spec n
    have hstrip : stripPy (Nat.toDigits 10 n) = Nat.toDigits 10 n :=
      stripPy_of_no_space (fun c hc => digit_not_space (hdig c hc))
    unfold pyIntChars
    rw [hstrip]
    cases hd : Nat.toDigits 10 n with
    | nil => exact absurd hd hne
    | cons c cs =>
      have hc0 : c.isDigit = true := hdig c (hd ▸ List.mem_cons_self c cs)
      simp only [if_neg (digit_ne_minus hc0), if_neg (digit_ne_plus hc0)]
      rw [← hd, parseUnsigned_toDigits, Option.map_some']
  | negSucc m =>
    rw [data_toString_negSucc]
    obtain ⟨hne, hdig, hval⟩ := toDigits_spec (m + 1)
    have hstrip : stripPy ('-' :: Nat.toDigits 10 (m + 1)) =
        '-' :: Nat.toDigits 10 (m + 1) := by
      refine stripPy_of_no_space ?_
      intro c hc
      rcases List.mem_cons.mp hc with h | h
      · subst h; decide
      · exact digit_not_space (hdig c h)
    unfold pyIntChars
    rw [hstrip]
    simp only [eq_self_iff_true, ite_true, parseUnsigned_toDigits, Option.map_some']
    congr 1

/-! ## Signature-header parsing lemmas -/

theorem mk_data (s : String) : String.mk s.data = s := by
  cases s
  rfl

theorem splitFirstChar_t_part (ts : List Char) :
    splitFirstChar '=' ('t' :: '=' :: ts) = some (['t'], ts) := by
  simp [splitFirstChar]

theorem splitFirstChar_v1_part (d : List Char) :
    splitFirstChar '=' ('v' :: '1' :: '=' :: d) = some (['v', '1'], d) := by
  simp [splitFirstChar]

theorem parsePart_t_part {ts : List Char} {t : Int} (hts : pyIntChars ts = some t)
    (acc : Option Int × Option (List Char)) :
    parsePart acc ('t' :: '=' :: ts) = (some t, acc.2) := by
  unfold parsePart
  rw [splitFirstChar_t_part]
  simp only []
  rw [if_true, hts]

theorem parsePart_v1_part (d : List Char) (acc : Option Int × Option (List Char)) :
    parsePart acc ('v' :: '1' :: '=' :: d) = (acc.1, some d) := by
  unfold parsePart
  rw [splitFirstChar_v1_part]
  simp

/-- A header whose text is literally `t=<ts>,v1=<d>` — with `<ts>` parsing as
the integer `t` and neither piece containing a comma — parses to `(t, d)`. -/
theorem parseSignature_build {s : String} {ts d : List Char} {t : Int}
    (hs : s.data = 't' :: '=' :: (ts ++ ',' :: 'v' :: '1' :: '=' :: d))
    (hts : pyIntChars ts = some t)
    (h1 : ',' ∉ ts) (h3 : ',' ∉ d) :
    parseSignature s = .ok (t, String.mk d) := by
  have hno1 : ',' ∉ 't' :: '=' :: ts := by
    intro h
    rcases List.mem_cons.mp h with h | h
    · exact absurd h (by decide)
    rcases List.mem_cons.mp h with h | h
    · exact absurd h (by decide)
    · exact h1 h
  have hno2 : ',' ∉ 'v' :: '1' :: '=' :: d := by
    intro h
    rcases List.mem_cons.mp h with h | h
    · exact absurd h (by decide)
    rcases List.mem_cons.mp h with h | h
    · exact absurd h (by decide)
    rcases List.mem_cons.mp h with h | h
    · exact absurd h (by decide)
    · exact h3 h
  have hshape : 't' :: '=' :: (ts ++ ',' :: 'v' :: '1' :: '=' :: d) =
      ('t' :: '=' :: ts) ++ ',' :: 'v' :: '1' :: '=' :: d := rfl
  unfold parseSignature
  rw [hs, hshape, splitChar_append _ hno1, splitChar_of_not_mem hno2]
  rw [List.foldl_cons, List.foldl_cons, List.foldl_nil]
  rw [parsePart_t_part hts, parsePart_v1_part]

/-- A part with no `=` leaves the parse state unchanged. -/
theorem parsePart_no_eq {part : List Char} (h : '=' ∉ part)
    (acc : Option Int × Option (List Char)) : parsePart acc part = acc := by
  unfold parsePart
  rw [splitFirstChar_of_not_mem h]

/-- A part whose key is neither `t` nor `v1` leaves the parse state
unchanged. -/
theorem parsePart_unknown_key {key : List Char} (value : List Char)
    (hk : '=' ∉ key) (hkt : key ≠ "t".data) (hkv : key ≠ "v1".data)
    (acc : Option Int × Option (List Char)) :
    parsePart acc (key ++ '=' :: value) = acc := by
  unfold parsePart
  rw [splitFirstChar_append _ hk]
  simp only []
  rw [if_neg hkt, if_neg hkv]

/-- A `t=` part whose value does not parse as an integer leaves the parse
state unchanged. -/
theorem parsePart_bad_int {value : List Char} (hv : pyIntChars value = none)
    (acc : Option Int × Option (List Char)) :
    parsePart acc ('t' :: '=' :: value) = acc := by
  unfold parsePart
  rw [splitFirstChar_t_part]
  simp only []
  rw [if_true, hv]

/-- Dropping a leading part that the loop skips does not change the parse. -/
theorem parseSignature_skip {junk rest : List Char}
    (hj : ',' ∉ junk) (hskip : ∀ acc, parsePart acc junk = acc) :
    parseSignature (String.mk (junk ++ ',' :: rest)) =
      parseSignature (String.mk rest) := by
  unfold parseSignature
  show (match (splitChar ',' (junk ++ ',' :: rest)).foldl parsePart (none, none) with
    | (some t, some v) => Except.ok (t, String.mk v)
    | _ => Except.error VerifyError.malformedSignature) = _
  rw [splitChar_append _ hj, List.foldl_cons, hskip]

/-- `_parse_signature` never crashes: it returns a parsed pair or the single
malformed-signature error. -/
theorem parseSignature_total (s : String) :
    (∃ r, parseSignature s = .ok r) ∨
      parseSignature s = .error .malformedSignature := by
  unfold parseSignature
  rcases (splitChar ',' s.data).foldl parsePart (none, none) with ⟨t?, v?⟩
  cases t? with
  | none => right; rfl
  | some t =>
    cases v? with
    | none => right; rfl
    | some v => left; exact ⟨(t, String.mk v), rfl⟩

/-! ## Unfolding lemmas for `verify` -/

theorem validateTimestamp_eq (w : Webhook) (now t : Int) :
    w.validateTimestamp now t =
      if |now - t| > w.tolerance then
        .error (.timestampTolerance (|now - t|) w.tolerance)
      else .ok () := rfl

/-- After a successful parse, `verify` with an absent or matching
cross-timestamp runs the tail of the algorithm. -/
theorem verify_unfold {w : Webhook} {mac : String → String → String}
    {jl : String → Option Json} {now : Int} {payload sig : String}
    {t : Int} {es : String} (hp : parseSignature sig = .ok (t, es))
    (ts? : Option Int) (hts : ts? = none ∨ ts? = some t) :
    w.verify mac jl now payload sig ts? = w.finishVerify mac jl now payload t es := by
  unfold Webhook.verify
  rw [hp]
  rcases hts with h | h
  · rw [h]
  · rw [h]
    simp only []
    rw [if_true]

/-- After a successful parse, a differing cross-timestamp fails with the
mismatch error, before the freshness and digest checks. -/
theorem verify_mismatch {w : Webhook} {mac : String → String → String}
    {jl : String → Option Json} {now : Int} {payload sig : String}
    {t : Int} {es : String} (hp : parseSignature sig = .ok (t, es))
    {ts : Int} (hne : ts ≠ t) :
    w.verify mac jl now payload sig (some ts) = .error .timestampMismatch := by
  unfold Webhook.verify
  rw [hp]
  simp only []
  rw [if_neg hne]

/-- The tail of `verify` when the timestamp is fresh: compare digests, then
decode. -/
theorem finishVerify_eq {w : Webhook} {mac : String → String → String}
    {jl : String → Option Json} {now : Int} {payload : String}
    {t : Int} {es : String} (htol : |now - t| ≤ w.tolerance) :
    w.finishVerify mac jl now payload t es =
      if mac w.secret (toString t ++ "." ++ payload) = es then
        (match jl payload with
         | none => Except.error VerifyError.jsonDecode
         | some data => Except.ok data)
      else .error .invalidSignature := by
  unfold Webhook.finishVerify
  rw [validateTimestamp_eq, if_neg (not_lt.mpr htol)]

/-! ## The claims -/

/-- C9: constructing a verifier with an empty signing secret fails with the
configuration error; with any non-empty secret construction succeeds and
stores exactly the secret and the tolerance (defaulting to
`DEFAULT_TOLERANCE = 300` seconds at call sites that give none), and the
verifier has no state beyond those two fields.  (The embedding is purely
functional, so no verification call can mutate them.) -/
theorem make_contract :
    (∀ tolerance, Webhook.make "" tolerance = .error .configurationError) ∧
    (∀ secret tolerance, secret ≠ "" →
      Webhook.make secret tolerance = .ok ⟨secret, tolerance⟩) ∧
    DEFAULT_TOLERANCE = 300 ∧
    (∀ w₁ w₂ : Webhook, w₁.secret = w₂.secret → w₁.tolerance = w₂.tolerance → w₁ = w₂) := by
  refine ⟨fun tolerance => rfl, fun secret tolerance h => ?_, rfl, fun w₁ w₂ hs ht => ?_⟩
  · unfold Webhook.make
    rw [if_neg h]
  · cases w₁
    cases w₂
    cases hs
    cases ht
    rfl

/-- Witness for C9 at a concrete secret and tolerance. -/
theorem make_contract_witness :
    Webhook.make "whsec" 77 = .ok ⟨"whsec", 77⟩ ∧
      Webhook.make "" 77 = .error .configurationError := by
  exact ⟨make_contract.2.1 "whsec" 77 (by decide), make_contract.1 77⟩

/-- C3: with tolerance `T ≥ 0` and current time `now`, the freshness check
passes exactly when `|now − t| ≤ T`; timestamps `now − T` and `now + T`
pass, while `now − T − 1` and `now + T + 1` fail with the tolerance error
carrying the observed difference `T + 1` and the tolerance `T`; in general
an out-of-window timestamp fails carrying `|now − t|` and `T`. -/
theorem validateTimestamp_contract (w : Webhook) (now : Int) (hT : 0 ≤ w.tolerance) :
    (∀ t, w.validateTimestamp now t = .ok () ↔ |now - t| ≤ w.tolerance) ∧
    w.validateTimestamp now (now - w.tolerance) = .ok () ∧
    w.validateTimestamp now (now + w.tolerance) = .ok () ∧
    w.validateTimestamp now (now - w.tolerance - 1) =
      .error (.timestampTolerance (w.tolerance + 1) w.tolerance) ∧
    w.validateTimestamp now (now + w.tolerance + 1) =
      .error (.timestampTolerance (w.tolerance + 1) w.tolerance) ∧
    (∀ t, w.tolerance < |now - t| →
      w.validateTimestamp now t = .error (.timestampTolerance (|now - t|) w.tolerance)) := by
  refine ⟨fun t => ?_, ?_, ?_, ?_, ?_, fun t h => ?_⟩
  · rw [validateTimestamp_eq]
    by_cases h : |now - t| > w.tolerance
    · rw [if_pos h]
      simp [not_le.mpr h]
    · rw [if_neg h]
      simp [not_lt.mp h]
  · rw [validateTimestamp_eq,
      show now - (now - w.tolerance) = w.tolerance by ring, abs_of_nonneg hT]
    exact if_neg (lt_irrefl _)
  · rw [validateTimestamp_eq,
      show now - (now + w.tolerance) = -w.tolerance by ring, abs_neg, abs_of_nonneg hT]
    exact if_neg (lt_irrefl _)
  · rw [validateTimestamp_eq,
      show now - (now - w.tolerance - 1) = w.tolerance + 1 by ring,
      abs_of_nonneg (by omega)]
    exact if_pos (by omega)
  · rw [validateTimestamp_eq,
      show now - (now + w.tolerance + 1) = -(w.tolerance + 1) by ring, abs_neg,
      abs_of_nonneg (by omega)]
    exact if_pos (by omega)
  · rw [validateTimestamp_eq, if_pos h]

/-- Witness for C3: tolerance 300, `now = 1000`; timestamp 700 passes and
timestamp 1350 fails carrying difference 350. -/
theorem validateTimestamp_contract_witness :
    Webhook.validateTimestamp ⟨"whsec", 300⟩ 1000 700 = .ok () ∧
      Webhook.validateTimestamp ⟨"whsec", 300⟩ 1000 1350 =
        .error (.timestampTolerance 350 300) := by
  have h := validateTimestamp_contract ⟨"whsec", 300⟩ 1000 (by decide)
  refine ⟨(h.1 700).mpr (by decide), ?_⟩
  have h2 := h.2.2.2.2.2 1350 (by decide)
  rw [h2]
  norm_num

/-- C4: with a supplied cross-timestamp equal to the parsed `t`, `verify`
proceeds exactly as without one; with any different value it fails with the
generic timestamp-mismatch error, whatever the freshness, digest and JSON
checks would have said (they are arbitrary here: no hypothesis constrains
`now`, `mac` or the payload). -/
theorem verify_crossTimestamp_contract (w : Webhook) (mac : String → String → String)
    (jl : String → Option Json) (now : Int) (payload sig : String)
    (t : Int) (es : String) (hp : parseSignature sig = .ok (t, es)) :
    (∀ ts, ts ≠ t → w.verify mac jl now payload sig (some ts) =
      .error .timestampMismatch) ∧
    w.verify mac jl now payload sig (some t) = w.verify mac jl now payload sig none := by
  constructor
  · intro ts hne
    exact verify_mismatch hp hne
  · rw [verify_unfold hp (some t) (Or.inr rfl), verify_unfold hp none (Or.inl rfl)]

/-- Witness for C4: a mismatching delivery timestamp is rejected even though
the signature itself would verify, and a matching one verifies. -/
theorem verify_crossTimestamp_contract_witness :
    Webhook.verify ⟨"whsec", 300⟩ demoMac jsonLoads 1000 "[1]"
      ("t=1000,v1=" ++ demoMac "whsec" "1000.[1]") (some 999) =
        .error .timestampMismatch ∧
    Webhook.verify ⟨"whsec", 300⟩ demoMac jsonLoads 1000 "[1]"
      ("t=1000,v1=" ++ demoMac "whsec" "1000.[1]") (some 1000) =
      Webhook.verify ⟨"whsec", 300⟩ demoMac jsonLoads 1000 "[1]"
        ("t=1000,v1=" ++ demoMac "whsec" "1000.[1]") none := by
  have h := verify_crossTimestamp_contract ⟨"whsec", 300⟩ demoMac jsonLoads 1000 "[1]"
    ("t=1000,v1=" ++ demoMac "whsec" "1000.[1]") 1000
    (demoMac "whsec" "1000.[1]") (by rfl)
  exact ⟨h.1 999 (by decide), h.2⟩

/-- C2: a correctly signed payload (well-formed header, matching or absent
cross-timestamp, timestamp within tolerance, digest matching) that is not
valid JSON fails with the JSON-decode error and never the invalid-signature
error: decoding runs only after the digest comparison has succeeded. -/
theorem verify_decode_after_auth (w : Webhook) (mac : String → String → String)
    (jl : String → Option Json) (now : Int) (payload sig : String)
    (t : Int) (es : String) (ts? : Option Int)
    (hp : parseSignature sig = .ok (t, es))
    (hts : ts? = none ∨ ts? = some t)
    (htol : |now - t| ≤ w.tolerance)
    (hsig : mac w.secret (toString t ++ "." ++ payload) = es)
    (hjson : jl payload = none) :
    w.verify mac jl now payload sig ts? = .error .jsonDecode := by
  rw [verify_unfold hp ts? hts, finishVerify_eq htol, if_pos hsig, hjson]

/-- Witness for C2: a correctly signed non-JSON payload fails with the
decode error. -/
theorem verify_decode_after_auth_witness :
    Webhook.verify ⟨"whsec", 300⟩ demoMac jsonLoads 1000 "not json"
      ("t=1000,v1=" ++ demoMac "whsec" "1000.not json") none =
      .error .jsonDecode := by
  exact verify_decode_after_auth ⟨"whsec", 300⟩ demoMac jsonLoads 1000 "not json"
    ("t=1000,v1=" ++ demoMac "whsec" "1000.not json") 1000
    (demoMac "whsec" "1000.not json") none (by rfl) (Or.inl rfl) (by decide) rfl rfl

/-- C6: whenever the recomputed digest differs from the supplied `v1` value
— in particular whenever the verifying secret differs from the signing
secret, which is the only way the claim's scenario arises — `verify` fails
with the invalid-signature error; no hypothesis mentions the payload, so
this holds for well-formed JSON payloads too, showing JSON decoding is
unreachable on a digest mismatch. -/
theorem verify_wrong_digest_invalidSignature (w : Webhook)
    (mac : String → String → String) (jl : String → Option Json)
    (now : Int) (payload sig : String) (t : Int) (es : String) (ts? : Option Int)
    (hp : parseSignature sig = .ok (t, es))
    (hts : ts? = none ∨ ts? = some t)
    (htol : |now - t| ≤ w.tolerance)
    (hsig : mac w.secret (toString t ++ "." ++ payload) ≠ es) :
    w.verify mac jl now payload sig ts? = .error .invalidSignature := by
  rw [verify_unfold hp ts? hts, finishVerify_eq htol, if_neg hsig]

/-- Witness for C6: a signature computed under secret `"whsec"` is rejected
as an invalid signature when verified under secret `"other"`, although the
payload is well-formed JSON. -/
theorem verify_wrong_digest_invalidSignature_witness :
    jsonLoads "[1]" = some (.arr [.num 1]) ∧
    Webhook.verify ⟨"other", 300⟩ demoMac jsonLoads 1000 "[1]"
      ("t=1000,v1=" ++ demoMac "whsec" "1000.[1]") none =
      .error .invalidSignature := by
  refine ⟨rfl, ?_⟩
  exact verify_wrong_digest_invalidSignature ⟨"other", 300⟩ demoMac jsonLoads 1000 "[1]"
    ("t=1000,v1=" ++ demoMac "whsec" "1000.[1]") 1000
    (demoMac "whsec" "1000.[1]") none (by rfl) (Or.inl rfl) (by decide) (by decide)

/-- C10: when the payload decodes as JSON, `verify` (all other checks
passing) returns the decoded value as-is, whatever its shape: nothing on the
success path requires the value to be an object/mapping, despite the
declared `dict` return type. -/
theorem verify_returns_nonobject_json (w : Webhook)
    (mac : String → String → String) (jl : String → Option Json)
    (now : Int) (payload sig : String) (t : Int) (es : String) (ts? : Option Int)
    (v : Json)
    (hp : parseSignature sig = .ok (t, es))
    (hts : ts? = none ∨ ts? = some t)
    (htol : |now - t| ≤ w.tolerance)
    (hsig : mac w.secret (toString t ++ "." ++ payload) = es)
    (hjson : jl payload = some v) :
    w.verify mac jl now payload sig ts? = .ok v := by
  rw [verify_unfold hp ts? hts, finishVerify_eq htol, if_pos hsig, hjson]

/-- Witness for C10: a correctly signed JSON array — not an object — is
returned as-is. -/
theorem verify_returns_nonobject_json_witness :
    Webhook.verify ⟨"whsec", 300⟩ demoMac jsonLoads 1000 "[1, 2]"
      ("t=1000,v1=" ++ demoMac "whsec" "1000.[1, 2]") none =
      .ok (.arr [.num 1, .num 2]) := by
  exact verify_returns_nonobject_json ⟨"whsec", 300⟩ demoMac jsonLoads 1000 "[1, 2]"
    ("t=1000,v1=" ++ demoMac "whsec" "1000.[1, 2]") 1000
    (demoMac "whsec" "1000.[1, 2]") none (.arr [.num 1, .num 2])
    (by rfl) (Or.inl rfl) (by decide) rfl rfl

/-- C1 counterexample: all of the claim's premises hold — non-empty secret,
`t` within tolerance of the current time, header formed as
`t={t},v1={hex}` with `hex` the lowercase-hex MAC of `"{t}.{payload}"`
under the secret — for the payload `"not json"`, yet `verify` does not
succeed: it fails with the JSON-decode error, refuting the claim's
quantification over payloads that are not valid JSON. -/
theorem verify_roundtrip_counterexample :
    ("whsec" : String) ≠ "" ∧
    |(1000 : Int) - 1000| ≤ 300 ∧
    (∀ c ∈ (demoMac "whsec" "1000.not json").data, isLowerHexDigit c = true) ∧
    Webhook.verify ⟨"whsec", 300⟩ demoMac jsonLoads 1000 "not json"
      ("t=1000,v1=" ++ demoMac "whsec" "1000.not json") none =
      .error .jsonDecode := by
  exact ⟨by decide, by decide, by decide, rfl⟩

/-- C1 (amended): for every payload that decodes as JSON, every non-empty
secret, and every integer `t` within the tolerance window of the current
time, `verify` on the header `t={t},v1={hex}` — `hex` the lowercase-hex MAC
of `"{t}.{payload}"` under the secret — succeeds and returns the decoded
payload.  The MAC is any function whose digests use the lowercase-hex
alphabet, as HMAC-SHA256 hexdigests do. -/
theorem verify_roundtrip_json (mac : String → String → String)
    (secret payload : String) (t now tol : Int) (v : Json)
    (hsec : secret ≠ "")
    (htol : |now - t| ≤ tol)
    (hhex : ∀ c ∈ (mac secret (toString t ++ "." ++ payload)).data,
      isLowerHexDigit c = true)
    (hjson : jsonLoads payload = some v) :
    Webhook.verify ⟨secret, tol⟩ mac jsonLoads now payload
      ("t=" ++ toString t ++ ",v1=" ++ mac secret (toString t ++ "." ++ payload))
      none = .ok v := by
  have hts_comma : ',' ∉ (toString t).data := by
    intro hmem
    rcases toString_int_chars t ',' hmem with h | h
    · exact absurd h (by decide)
    · exact absurd h (by decide)
  have hd_comma : ',' ∉ (mac secret (toString t ++ "." ++ payload)).data :=
    fun hmem => lowerHex_ne_comma (hhex ',' hmem) rfl
  have hdata : ("t=" ++ toString t ++ ",v1=" ++
      mac secret (toString t ++ "." ++ payload)).data =
      't' :: '=' :: ((toString t).data ++ ',' :: 'v' :: '1' :: '=' ::
        (mac secret (toString t ++ "." ++ payload)).data) := by
    simp [String.data_append]
  have hp := parseSignature_build hdata (pyIntChars_toString t) hts_comma hd_comma
  rw [mk_data] at hp
  rw [verify_unfold hp none (Or.inl rfl), finishVerify_eq htol, if_pos rfl, hjson]

/-- Witness for C1 (amended), at a concrete secret, payload and time. -/
theorem verify_roundtrip_json_witness :
    Webhook.verify ⟨"whsec", 300⟩ demoMac jsonLoads 1100 "[1, 2]"
      ("t=" ++ toString (1000 : Int) ++ ",v1=" ++ demoMac "whsec"
        (toString (1000 : Int) ++ "." ++ "[1, 2]")) none =
      .ok (.arr [.num 1, .num 2]) := by
  exact verify_roundtrip_json demoMac "whsec" "[1, 2]" 1000 1100 300
    (.arr [.num 1, .num 2]) (by decide) (by decide) (by decide) rfl

/-- C5: signature-header parsing splits on commas and on the first `=` of
each token; tokens without `=`, with unrecognised keys, or with a `t` value
that fails integer parsing are ignored without failure; and the inputs
`v1=onlyhash`, `t=12345` and `garbage` (missing `t`, missing `v1`, missing
both) make `verify` fail with the malformed-signature error — parsing never
produces any other error and never crashes. -/
theorem parse_malformed_contract :
    (∀ (w : Webhook) (mac : String → String → String) (jl : String → Option Json)
      (now : Int) (payload : String) (ts? : Option Int),
      w.verify mac jl now payload "v1=onlyhash" ts? = .error .malformedSignature) ∧
    (∀ (w : Webhook) (mac : String → String → String) (jl : String → Option Json)
      (now : Int) (payload : String) (ts? : Option Int),
      w.verify mac jl now payload "t=12345" ts? = .error .malformedSignature) ∧
    (∀ (w : Webhook) (mac : String → String → String) (jl : String → Option Json)
      (now : Int) (payload : String) (ts? : Option Int),
      w.verify mac jl now payload "garbage" ts? = .error .malformedSignature) ∧
    (∀ s, (∃ r, parseSignature s = .ok r) ∨
      parseSignature s = .error .malformedSignature) ∧
    (∀ part acc, '=' ∉ part → parsePart acc part = acc) ∧
    (∀ key value acc, '=' ∉ key → key ≠ "t".data → key ≠ "v1".data →
      parsePart acc (key ++ '=' :: value) = acc) ∧
    (∀ value acc, pyIntChars value = none →
      parsePart acc ('t' :: '=' :: value) = acc) ∧
    (∀ junk rest, ',' ∉ junk → (∀ acc, parsePart acc junk = acc) →
      parseSignature (String.mk (junk ++ ',' :: rest)) =
        parseSignature (String.mk rest)) := by
  refine ⟨fun w mac jl now payload ts? => rfl, fun w mac jl now payload ts? => rfl,
    fun w mac jl now payload ts? => rfl, parseSignature_total,
    fun part acc h => parsePart_no_eq h acc,
    fun key value acc hk h1 h2 => parsePart_unknown_key value hk h1 h2 acc,
    fun value acc hv => parsePart_bad_int hv acc,
    fun junk rest hj hs => parseSignature_skip hj hs⟩

/-- Witness for C5: the malformed inputs fail through `verify` at concrete
arguments, and a leading unrecognised token is skipped. -/
theorem parse_malformed_contract_witness :
    Webhook.verify ⟨"whsec", 300⟩ demoMac jsonLoads 0 "p" "garbage" none =
      .error .malformedSignature ∧
    Webhook.verify ⟨"whsec", 300⟩ demoMac jsonLoads 0 "p" "v1=onlyhash" (some 3) =
      .error .malformedSignature ∧
    Webhook.verify ⟨"whsec", 300⟩ demoMac jsonLoads 0 "p" "t=12345" none =
      .error .malformedSignature ∧
    parseSignature (String.mk ("foo".data ++ ',' :: "t=1,v1=ab".data)) =
      parseSignature (String.mk "t=1,v1=ab".data) := by
  refine ⟨parse_malformed_contract.2.2.1 ⟨"whsec", 300⟩ demoMac jsonLoads 0 "p" none,
    parse_malformed_contract.1 ⟨"whsec", 300⟩ demoMac jsonLoads 0 "p" (some 3),
    parse_malformed_contract.2.1 ⟨"whsec", 300⟩ demoMac jsonLoads 0 "p" none,
    parse_malformed_contract.2.2.2.2.2.2.2 "foo".data "t=1,v1=ab".data
      (by decide) (fun acc => parsePart_no_eq (by decide) acc)⟩

/-- C7: `verify_headers` gives the same result when every header key is
replaced by any other casing of the same name (same lowercasing, same value,
same order): all keys are lowercased before the signature and delivery
headers are looked up. -/
theorem verifyHeaders_case_insensitive (w : Webhook)
    (mac : String → String → String) (jl : String → Option Json) (now : Int)
    (h₁ h₂ : List (String × String)) (payload : String)
    (h : List.Forall₂ (fun a b => strLower a.1 = strLower b.1 ∧ a.2 = b.2) h₁ h₂) :
    w.verifyHeaders mac jl now h₁ payload = w.verifyHeaders mac jl now h₂ payload := by
  have hn : normalizeHeaders h₁ = normalizeHeaders h₂ := by
    induction h with
    | nil => rfl
    | cons hab hrest ih =>
      unfold normalizeHeaders at ih ⊢
      simp only [List.map_cons]
      rw [ih, hab.1, hab.2]
  unfold Webhook.verifyHeaders
  rw [hn]

/-- Witness for C7: mixed-case and lowercase header maps verify identically
(and successfully). -/
theorem verifyHeaders_case_insensitive_witness :
    Webhook.verifyHeaders ⟨"whsec", 300⟩ demoMac jsonLoads 1000
      [("X-Lettermint-Signature", "t=1000,v1=" ++ demoMac "whsec" "1000.[1]"),
       ("X-Lettermint-Delivery", "1000")] "[1]" =
    Webhook.verifyHeaders ⟨"whsec", 300⟩ demoMac jsonLoads 1000
      [("x-lettermint-signature", "t=1000,v1=" ++ demoMac "whsec" "1000.[1]"),
       ("x-lettermint-delivery", "1000")] "[1]" ∧
    Webhook.verifyHeaders ⟨"whsec", 300⟩ demoMac jsonLoads 1000
      [("X-Lettermint-Signature", "t=1000,v1=" ++ demoMac "whsec" "1000.[1]"),
       ("X-Lettermint-Delivery", "1000")] "[1]" = .ok (.arr [.num 1]) := by
  refine ⟨?_, rfl⟩
  exact verifyHeaders_case_insensitive ⟨"whsec", 300⟩ demoMac jsonLoads 1000 _ _ "[1]"
    (List.Forall₂.cons ⟨rfl, rfl⟩ (List.Forall₂.cons ⟨rfl, rfl⟩ List.Forall₂.nil))

/-- C8: the static `verify_signature` behaves extensionally as constructing
`Webhook(secret, tolerance)` and calling `verify`: with an empty secret it
fails with the construction error, and with a non-empty secret it returns
exactly what `verify` on the constructed verifier returns. -/
theorem verifySignature_delegates (mac : String → String → String)
    (jl : String → Option Json) (now : Int) (payload sig secret : String)
    (ts? : Option Int) (tolerance : Int) :
    (secret = "" → Webhook.verifySignature mac jl now payload sig secret ts? tolerance =
      .error .configurationError) ∧
    (secret ≠ "" → Webhook.verifySignature mac jl now payload sig secret ts? tolerance =
      Webhook.verify ⟨secret, tolerance⟩ mac jl now payload sig ts?) := by
  constructor
  · intro h
    subst h
    rfl
  · intro h
    unfold Webhook.verifySignature Webhook.make
    rw [if_neg h]

/-- Witness for C8: the static form agrees with construct-then-verify at a
concrete input, and fails the same way on an empty secret. -/
theorem verifySignature_delegates_witness :
    Webhook.verifySignature demoMac jsonLoads 1000 "[1]"
      ("t=1000,v1=" ++ demoMac "whsec" "1000.[1]") "whsec" none 300 =
      Webhook.verify ⟨"whsec", 300⟩ demoMac jsonLoads 1000 "[1]"
        ("t=1000,v1=" ++ demoMac "whsec" "1000.[1]") none ∧
    Webhook.verifySignature demoMac jsonLoads 1000 "[1]"
      ("t=1000,v1=" ++ demoMac "whsec" "1000.[1]") "" none 300 =
      .error .configurationError := by
  have h := verifySignature_delegates demoMac jsonLoads 1000 "[1]"
    ("t=1000,v1=" ++ demoMac "whsec" "1000.[1]") "whsec" none 300
  have h0 := verifySignature_delegates demoMac jsonLoads 1000 "[1]"
    ("t=1000,v1=" ++ demoMac "whsec" "1000.[1]") "" none 300
  exact ⟨h.2 (by decide), h0.1 rfl⟩

end Lettermint
